import Mathlib

/-!
Users service: handler, token service and Postgres repository.

A shallow embedding of `src/handler/users.go` (package `hander`).

Conventions of the embedding:

* a Go string is a Lean `String`; `len` of a string is its byte size;
* a Go pointer `*T` that the code may find nil is an `Option T`; dereferencing
  `none` is the runtime panic "invalid memory address or nil pointer
  dereference", the `Run.panic` outcome, which keeps the calls made on the
  collaborators before the panic;
* a Go result pair `(v, err)` is a Lean pair whose second component is an
  `Option GoError` (`none` is the nil error);
* a handler method `func (s *Handler) M(ctx, req, res) error` mutates `req`
  and `res` in place; its embedding returns the final `req`, the final `res`,
  the returned error and the calls made on the collaborators;
* the external packages (`jwt-go`, `bcrypt`, `encoding/json`, `database/sql`,
  the broker) are not part of the repository: their control flow is followed
  where the handler depends on it and their cryptographic and serialisation
  primitives are parameters.
-/

set_option linter.dupNamespace false

namespace Users

/-! ## Data model -/

/-- The storage record `User` of the handler package. -/
structure User where
  ID : String := ""
  Name : String := ""
  Email : String := ""
  Surname : String := ""
  Password : String := ""
  deriving DecidableEq, Repr

namespace pb

/-- The protobuf message `pb.User` (package `users/proto`): the five string
fields the handler reads and writes. -/
structure User where
  Id : String := ""
  Name : String := ""
  Email : String := ""
  Surname : String := ""
  Password : String := ""
  deriving DecidableEq, Repr

/-- The protobuf message `pb.Token`. -/
structure Token where
  Token : String := ""
  Valid : Bool := false
  deriving DecidableEq, Repr

/-- The protobuf message `pb.Response`: `User` is a `*pb.User`, `Users` a
`[]*pb.User`. -/
structure Response where
  User : Option pb.User := none
  Users : List (Option pb.User) := []
  deriving DecidableEq, Repr

end pb

namespace broker

/-- A `broker.Message`: header entries and body. -/
structure Message where
  Header : List (String × String) := []
  Body : String := ""
  deriving DecidableEq, Repr

end broker

/-! ## Outcomes -/

/-- A Go `error` value. `errorString` is what `errors.New` and `fmt.Errorf`
build; `ValidationError` is the `*ValidationError` of jwt-go, its `Inner` error
kept by its message and `Errors` being the bit field of failed checks. -/
inductive GoError where
  | errorString (s : String)
  | ValidationError (Inner : Option String) (Errors : Nat) (text : String)
  deriving DecidableEq, Repr

/-- A call a handler method made on one of its collaborators. -/
inductive Call where
  | RepositoryCreate (user : User)
  | Publish (topic : String) (msg : broker.Message)
  | Encode (user : Option pb.User)
  deriving DecidableEq, Repr

/-- The outcome of running a piece of Go code: it returns a value or it
panics with a nil pointer dereference. A panic keeps the calls that had
been made on the collaborators when it happened, in order: what was
written to the repository or sent to the broker before a panic stays
written and sent. -/
inductive Run (α : Type) where
  | ret (a : α)
  | panic (calls : List Call)
  deriving DecidableEq, Repr

/-- Sequencing of runs: a panic aborts what follows. -/
def Run.bind {α β : Type} (x : Run α) (f : α → Run β) : Run β :=
  match x with
  | .ret a => f a
  | .panic calls => .panic calls

instance : Monad Run where
  pure := Run.ret
  bind := Run.bind

/-- The run `x` entered after `calls` had been made: when `x` panics,
these calls come first in what the panic keeps. A call `c` on a
collaborator whose method runs as `x` is `x.after [c]`. -/
def Run.after {α : Type} (x : Run α) (calls : List Call) : Run α :=
  match x with
  | .ret a => .ret a
  | .panic later => .panic (calls ++ later)

/-- Dereference of a pointer: a nil pointer panics. -/
def deref {α : Type} (p : Option α) : Run α :=
  match p with
  | some a => .ret a
  | none => .panic []

/-! ## Marshalling between storage records and protobuf messages -/

/-- `MarshalUser`: field-by-field copy into a fresh `*User`; a nil argument
panics on the first field read. -/
def MarshalUser (user : Option pb.User) : Run User := do
  let u ← deref user
  pure { ID := u.Id, Name := u.Name, Email := u.Email, Surname := u.Surname,
         Password := u.Password }

/-- `UnmarshalUser`: field-by-field copy into a fresh `*pb.User`; a nil
argument panics on the first field read. -/
def UnmarshalUser (user : Option User) : Run pb.User := do
  let u ← deref user
  pure { Id := u.ID, Name := u.Name, Email := u.Email, Surname := u.Surname,
         Password := u.Password }

/-- `MarshalUserCollection`: `make([]*User, len(users))` allocates a slice
that already holds `len(users)` nil pointers; the loop then appends one
entry per element. -/
def MarshalUserCollection (users : List (Option pb.User)) :
    Run (List (Option User)) :=
  users.foldlM (fun u val => do
      let m ← MarshalUser val
      pure (u ++ [some m]))
    (List.replicate users.length none)

/-- `UnmarshalUserCollection`: `make([]*pb.User, len(users))` allocates a
slice that already holds `len(users)` nil pointers; the loop then appends
one entry per element. -/
def UnmarshalUserCollection (users : List (Option User)) :
    Run (List (Option pb.User)) :=
  users.foldlM (fun u val => do
      let m ← UnmarshalUser val
      pure (u ++ [some m]))
    (List.replicate users.length none)

/-! ## Package constants -/

/-- The signing key, `key = []byte("mySuperSecretKey")`. -/
def key : String := "mySuperSecretKey"

/-- The topic creation events are published to. -/
def topic : String := "user.created"

/-! ## The `strings` functions the JWT library uses -/

namespace strings

/-- Splitting of a character list at every occurrence of `sep`: the list of
the pieces between separators, empty pieces included. -/
def splitChars (sep : Char) : List Char → List (List Char)
  | [] => [[]]
  | c :: cs =>
    if c = sep then [] :: splitChars sep cs
    else
      match splitChars sep cs with
      | [] => [[c]]
      | p :: ps => (c :: p) :: ps

/-- `strings.Split(s, sep)` for a one-character separator: `Split("", ".")`
is the one-element list holding the empty string. -/
def Split (s : String) (sep : Char) : List String :=
  (splitChars sep s.data).map String.mk

/-- `strings.HasPrefix(strings.ToLower(s), "bearer ")`. -/
def hasBearer (s : String) : Bool :=
  "bearer ".data.isPrefixOf (s.data.map Char.toLower)

end strings

/-! ## The JWT library (`github.com/dgrijalva/jwt-go`) -/

namespace jwt

/-- `jwt.StandardClaims`; the time fields are Unix seconds (`int64`). -/
structure StandardClaims where
  Audience : String := ""
  ExpiresAt : Int := 0
  Id : String := ""
  IssuedAt : Int := 0
  Issuer : String := ""
  NotBefore : Int := 0
  Subject : String := ""
  deriving DecidableEq, Repr

/-- Bit of `ValidationError.Errors`: the token is malformed. -/
def ValidationErrorMalformed : Nat := 1

/-- Bit of `ValidationError.Errors`: the token could not be verified. -/
def ValidationErrorUnverifiable : Nat := 2

/-- Bit of `ValidationError.Errors`: signature validation failed. -/
def ValidationErrorSignatureInvalid : Nat := 4

/-- Bit of `ValidationError.Errors`: the `exp` check failed. -/
def ValidationErrorExpired : Nat := 16

/-- Bit of `ValidationError.Errors`: the `iat` check failed. -/
def ValidationErrorIssuedAt : Nat := 32

/-- Bit of `ValidationError.Errors`: the `nbf` check failed. -/
def ValidationErrorNotValidYet : Nat := 128

/-- A `*jwt.ValidationError` under construction. -/
structure VErr where
  Inner : Option String := none
  Errors : Nat := 0
  text : String := ""
  deriving DecidableEq, Repr

/-- The Go `error` a `*ValidationError` is returned as. -/
def VErr.toError (v : VErr) : GoError :=
  .ValidationError v.Inner v.Errors v.text

/-- `ValidationError.valid`: no error bit is set. -/
def VErr.valid (v : VErr) : Bool := v.Errors == 0

/-- `verifyExp`: an unset (zero) expiry passes unless required. -/
def verifyExp (exp now : Int) (required : Bool) : Bool :=
  if exp = 0 then !required else decide (now ≤ exp)

/-- `verifyIat`. -/
def verifyIat (iat now : Int) (required : Bool) : Bool :=
  if iat = 0 then !required else decide (now ≥ iat)

/-- `verifyNbf`. -/
def verifyNbf (nbf now : Int) (required : Bool) : Bool :=
  if nbf = 0 then !required else decide (now ≥ nbf)

/-- The `*ValidationError` that `StandardClaims.Valid` accumulates at
clock reading `now` (`TimeFunc().Unix()`): the expiry, issued-at and
not-before checks in turn. `fmtExpired now exp` is the text
`fmt.Errorf("token is expired by %v", delta)` produces. -/
def StandardClaims.checks (fmtExpired : Int → Int → String) (now : Int)
    (c : StandardClaims) : VErr :=
  let vErr : VErr := {}
  let vErr :=
    if verifyExp c.ExpiresAt now false == false then
      { vErr with Inner := some (fmtExpired now c.ExpiresAt),
                  Errors := vErr.Errors ||| ValidationErrorExpired }
    else vErr
  let vErr :=
    if verifyIat c.IssuedAt now false == false then
      { vErr with Inner := some "Token used before issued",
                  Errors := vErr.Errors ||| ValidationErrorIssuedAt }
    else vErr
  let vErr :=
    if verifyNbf c.NotBefore now false == false then
      { vErr with Inner := some "token is not valid yet",
                  Errors := vErr.Errors ||| ValidationErrorNotValidYet }
    else vErr
  vErr

/-- `StandardClaims.Valid` at clock reading `now`: nil when the
accumulated error has no bit set, the accumulated error otherwise. -/
def StandardClaims.Valid (fmtExpired : Int → Int → String) (now : Int)
    (c : StandardClaims) : Option VErr :=
  let vErr := StandardClaims.checks fmtExpired now c
  if vErr.valid then none else some vErr

end jwt

/-- `CustomClaims`: the embedded user pointer and the embedded
`jwt.StandardClaims`. -/
structure CustomClaims where
  User : Option pb.User := none
  StandardClaims : jwt.StandardClaims := {}
  deriving DecidableEq, Repr

namespace jwt

/-- The entries of a token header the library writes and reads; `alg` is
`some a` exactly when the header has a string under `"alg"`. -/
structure Header where
  typ : Option String := none
  alg : Option String := none
  deriving DecidableEq, Repr

/-- A `jwt.SigningMethod`; `Sign` and `Verify` are the cryptographic
primitives (for HS256: HMAC-SHA256 and base64url), errors by message. -/
structure SigningMethod where
  Alg : String
  Sign : (signingString key : String) → Except String String
  Verify : (signingString signature key : String) → Option String

/-- The serialisation and signing primitives of the library, taken as
parameters: segment encoding and decoding (`encoding/json` followed by
base64url), the HS256 method, the registry of methods by name, and the
formatting of the expiry message. -/
structure Primitives where
  encodeHeader : Header → Except String String
  encodeClaims : CustomClaims → Except String String
  decodeHeader : String → Except String Header
  decodeClaims : String → Except String CustomClaims
  SigningMethodHS256 : SigningMethod
  GetSigningMethod : String → Option SigningMethod
  fmtExpired : Int → Int → String

/-- A `jwt.Token`; `Method` and `Claims` are nil until the parser sets
them. -/
structure Token where
  Raw : String := ""
  Method : Option SigningMethod := none
  Header : Header := {}
  Claims : Option CustomClaims := none
  Signature : String := ""
  Valid : Bool := false

/-- `jwt.NewWithClaims(method, claims)`. -/
def NewWithClaims (method : SigningMethod) (claims : CustomClaims) : Token :=
  { Header := { typ := some "JWT", alg := some method.Alg },
    Claims := some claims,
    Method := some method }

/-- `Token.SigningString`: the encoded header and the encoded claims
joined by a dot. -/
def Token.SigningString (P : Primitives) (t : Token) :
    Run (String × Option GoError) := do
  match P.encodeHeader t.Header with
  | .error e => pure ("", some (.errorString e))
  | .ok h =>
    let claims ← deref t.Claims
    match P.encodeClaims claims with
    | .error e => pure ("", some (.errorString e))
    | .ok c => pure (h ++ "." ++ c, none)

/-- `Token.SignedString(key)`: the signing string, a dot, the signature. -/
def Token.SignedString (P : Primitives) (t : Token) (key : String) :
    Run (String × Option GoError) := do
  let (sstr, err) ← t.SigningString P
  if err.isSome then return ("", err)
  let method ← deref t.Method
  match method.Sign sstr key with
  | .error e => pure ("", some (.errorString e))
  | .ok sig => pure (sstr ++ "." ++ sig, none)

/-- `Parser.ParseUnverified`: split into three segments, decode header and
claims, look the signing method up. Without exactly three segments the
returned token is nil. -/
def ParseUnverified (P : Primitives) (tokenString : String) :
    Option Token × List String × Option GoError :=
  let parts := strings.Split tokenString '.'
  match parts with
  | [p0, p1, _] =>
    let token : Token := { Raw := tokenString }
    match P.decodeHeader p0 with
    | .error e =>
      if strings.hasBearer tokenString then
        (some token, parts, some (.ValidationError none ValidationErrorMalformed
          "tokenstring should not contain \x27bearer \x27"))
      else
        (some token, parts, some (.ValidationError (some e) ValidationErrorMalformed ""))
    | .ok header =>
      let token := { token with Header := header }
      let token := { token with Claims := some ({} : CustomClaims) }
      match P.decodeClaims p1 with
      | .error e =>
        (some token, parts, some (.ValidationError (some e) ValidationErrorMalformed ""))
      | .ok claims =>
        let token := { token with Claims := some claims }
        match token.Header.alg with
        | some method =>
          match P.GetSigningMethod method with
          | none =>
            (some token, parts, some (.ValidationError none ValidationErrorUnverifiable
              "signing method (alg) is unavailable."))
          | some m => (some { token with Method := some m }, parts, none)
        | none =>
          (some token, parts, some (.ValidationError none ValidationErrorUnverifiable
            "signing method (alg) is unspecified."))
  | _ =>
    (none, parts, some (.ValidationError none ValidationErrorMalformed
      "token contains an invalid number of segments"))

/-- `Parser.ParseWithClaims` with the default parser and a key function
that returns `key`: parse, validate the claims at clock reading `now`,
verify the signature; the token is marked valid when no check failed. -/
def ParseWithClaims (P : Primitives) (now : Int) (tokenString : String)
    (key : String) : Run (Option Token × Option GoError) := do
  let (token, parts, err) := ParseUnverified P tokenString
  if err.isSome then return (token, err)
  let token ← deref token
  let vErr : VErr := {}
  let claims ← deref token.Claims
  let vErr :=
    match claims.StandardClaims.Valid P.fmtExpired now with
    | some e => e
    | none => vErr
  let token := { token with Signature := parts.getD 2 "" }
  let method ← deref token.Method
  let vErr :=
    match method.Verify (parts.getD 0 "" ++ "." ++ parts.getD 1 "") token.Signature key with
    | some e => { vErr with Inner := some e,
                            Errors := vErr.Errors ||| ValidationErrorSignatureInvalid }
    | none => vErr
  if vErr.valid then
    return (some { token with Valid := true }, none)
  return (some token, some vErr.toError)

end jwt

/-! ## The bcrypt library (`golang.org/x/crypto/bcrypt`) and `encoding/json` -/

namespace bcrypt

/-- `bcrypt.DefaultCost`. -/
def DefaultCost : Nat := 10

/-- The least length of a bcrypt hash, `minHashSize`. -/
def minHashSize : Nat := 59

/-- `bcrypt.ErrHashTooShort`. -/
def ErrHashTooShort : GoError :=
  .errorString "crypto/bcrypt: hashedSecret too short to be a bcrypted password"

/-- `bcrypt.ErrMismatchedHashAndPassword`. -/
def ErrMismatchedHashAndPassword : GoError :=
  .errorString "crypto/bcrypt: hashedPassword is not the hash of the given password"

/-- `bcrypt.ErrPasswordTooLong`. -/
def ErrPasswordTooLong : GoError :=
  .errorString "bcrypt: password length exceeds 72 bytes"

end bcrypt

/-- The library primitives the handler calls, taken as parameters.
`GenerateFromPassword password cost` is one call of
`bcrypt.GenerateFromPassword` (the salt it draws is part of the
environment); `compareSized hash password` is what
`bcrypt.CompareHashAndPassword` does once the hash has passed its length
check (parsing of version, cost and salt, rehashing, constant-time
comparison); `jsonMarshal` is `json.Marshal` on a `*pb.User`, whose error
result is nil for a message of string fields. -/
structure Lib where
  GenerateFromPassword : String → Nat → String × Option GoError
  compareSized : String → String → Option GoError
  jsonMarshal : pb.User → String

/-- `bcrypt.CompareHashAndPassword(hashedPassword, password)`: a stored
hash shorter than `minHashSize` bytes is rejected with `ErrHashTooShort`
before any comparison. -/
def bcrypt.CompareHashAndPassword (L : Lib) (hashedPassword password : String) :
    Option GoError :=
  if hashedPassword.utf8ByteSize < bcrypt.minHashSize then
    some bcrypt.ErrHashTooShort
  else L.compareSized hashedPassword password

/-! ## Collaborator interfaces -/

/-- The `Repository` interface. Every method may panic, hence `Run`.
`Create` is handed a pointer to a fresh copy of the request, so what it
writes through the pointer (the generated id) is not seen by the handler. -/
structure Repository where
  GetAll : Run (List (Option User) × Option GoError)
  Get : String → Run (Option User × Option GoError)
  Create : User → Run (Option GoError)
  GetByEmail : String → Run (Option User × Option GoError)

/-- The `authable` interface. -/
structure authable where
  Decode : String → Run (Option CustomClaims × Option GoError)
  Encode : Option pb.User → Run (String × Option GoError)

/-- The `broker.Broker` interface, its `Publish` method. -/
structure Broker where
  Publish : String → broker.Message → Run (Option GoError)

/-- The `Handler` struct. `PubSub` is an interface value that may be nil:
`main` builds the handler without setting it. -/
structure Handler where
  Repository : Repository
  TokenService : authable
  PubSub : Option Broker := none

/-! ## The Postgres repository -/

/-- The `users` table as `*sqlx.DB` shows it to a query: its rows, every
column a string. -/
structure DB where
  rows : List User := []
  deriving DecidableEq, Repr

/-- `sql.ErrNoRows`. -/
def ErrNoRows : GoError := .errorString "sql: no rows in result set"

/-- The statement `select * from users where email=$1` followed by
`row.Scan` into `user`: the first matching row is copied into `user`;
when none matches, `user` is left as it was and `sql.ErrNoRows` is the
error. -/
def DB.scanByEmail (db : DB) (email : String) (user : User) : User × Option GoError :=
  match db.rows.find? (fun r => r.Email == email) with
  | some r => (r, none)
  | none => (user, some ErrNoRows)

/-- `PostgresRepository.GetByEmail`: the scan error is logged and dropped;
the result is a pointer to the local `user` and a nil error, whether or
not a row was found. -/
def PostgresRepository.GetByEmail (db : DB) (email : String) :
    Run (Option User × Option GoError) :=
  let user : User := {}
  let (user, _err) := db.scanByEmail email user
  let poi := some user
  .ret (poi, none)

/-! ## The token service -/

/-- `TokenService.Decode` at clock reading `now`: `tokenType.Claims` is
read without a nil check on `tokenType`. -/
def TokenService.Decode (P : jwt.Primitives) (now : Int) (token : String) :
    Run (Option CustomClaims × Option GoError) := do
  let (tokenType, err) ← jwt.ParseWithClaims P now token key
  let tokenType ← deref tokenType
  match tokenType.Claims with
  | some claims =>
    if tokenType.Valid then pure (some claims, none) else pure (none, err)
  | none => pure (none, err)

/-- The claims `TokenService.Encode` builds for `user`. -/
def TokenService.claims (user : Option pb.User) : CustomClaims :=
  { User := user, StandardClaims := { ExpiresAt := 15000, Issuer := "users" } }

/-- `TokenService.Encode`: claims with the literal expiry `15000`, signed
with HS256 under `key`. -/
def TokenService.Encode (P : jwt.Primitives) (user : Option pb.User) :
    Run (String × Option GoError) :=
  let claims := TokenService.claims user
  let token := jwt.NewWithClaims P.SigningMethodHS256 claims
  token.SignedString P key

/-- The `*TokenService` value as an `authable`. -/
def TokenService.toAuthable (P : jwt.Primitives) (now : Int) : authable :=
  { Decode := TokenService.Decode P now, Encode := TokenService.Encode P }

/-! ## The handler

The RPC server calls every method with allocated `req` and `res`
messages, so these are values, not pointers. Logging is not modelled. -/

/-- What a handler method leaves behind: the request and response as
mutated, the returned error, and the calls made on the collaborators, in
order. -/
structure Result (Req Res : Type) where
  req : Req
  res : Res
  err : Option GoError
  calls : List Call := []
  deriving DecidableEq, Repr

/-- `Handler.Get`. -/
def Handler.Get (s : Handler) (req : pb.User) (res : pb.Response) :
    Run (Result pb.User pb.Response) := do
  let (result, err) ← s.Repository.Get req.Id
  if err.isSome then return { req := req, res := res, err := err }
  let user ← UnmarshalUser result
  let res := { res with User := some user }
  return { req := req, res := res, err := none }

/-- `Handler.GetAll`; the request message `pb.Request` carries nothing the
method reads. -/
def Handler.GetAll (s : Handler) (req : Unit) (res : pb.Response) :
    Run (Result Unit pb.Response) := do
  let (results, err) ← s.Repository.GetAll
  if err.isSome then return { req := req, res := res, err := err }
  let users ← UnmarshalUserCollection results
  let res := { res with Users := users }
  return { req := req, res := res, err := none }

/-- `Handler.Auth`. -/
def Handler.Auth (s : Handler) (L : Lib) (req : pb.User) (res : pb.Token) :
    Run (Result pb.User pb.Token) := do
  let (user, err) ← s.Repository.GetByEmail req.Email
  if err.isSome then return { req := req, res := res, err := err }
  let u ← deref user
  match bcrypt.CompareHashAndPassword L u.Password req.Password with
  | some err => return { req := req, res := res, err := some err }
  | none =>
    let tok ← UnmarshalUser user
    let (token, err) ← (s.TokenService.Encode (some tok)).after [.Encode (some tok)]
    if err.isSome then
      return { req := req, res := res, err := err, calls := [.Encode (some tok)] }
    let res := { res with Token := token }
    return { req := req, res := res, err := none, calls := [.Encode (some tok)] }

/-- `Handler.publishEvent`: the body is the JSON of `user` as it stands at
the call; a `Publish` error is logged and dropped. The result is the
returned error and the call made. -/
def Handler.publishEvent (s : Handler) (L : Lib) (user : pb.User) :
    Run (Option GoError × List Call) := do
  let (body, err) : String × Option GoError := (L.jsonMarshal user, none)
  if err.isSome then return (err, [])
  let msg : broker.Message := { Header := [("id", user.Id)], Body := body }
  let pubSub ← deref s.PubSub
  let _err ← (pubSub.Publish topic msg).after [.Publish topic msg]
  return (none, [.Publish topic msg])

/-- `Handler.Create`. The method returns right after `publishEvent`; the
statements that follow in the source (clearing `req.Password`, setting
`res.User`) are never reached. A panic in or after the call of
`Repository.Create` keeps that call. -/
def Handler.Create (s : Handler) (L : Lib) (req : pb.User) (res : pb.Response) :
    Run (Result pb.User pb.Response) := do
  let (hashedPass, err) := L.GenerateFromPassword req.Password bcrypt.DefaultCost
  if err.isSome then return { req := req, res := res, err := err }
  let req := { req with Password := hashedPass }
  let user ← MarshalUser (some req)
  let err ← (s.Repository.Create user).after [.RepositoryCreate user]
  if err.isSome then
    return { req := req, res := res, err := err, calls := [.RepositoryCreate user] }
  let (err, published) ← (s.publishEvent L req).after [.RepositoryCreate user]
  if err.isSome then
    return { req := req, res := res, err := err, calls := .RepositoryCreate user :: published }
  return { req := req, res := res, err := none, calls := .RepositoryCreate user :: published }

/-- `Handler.ValidateToken`: `claims.User.Id` is read without a nil check
on `claims.User`. -/
def Handler.ValidateToken (s : Handler) (req : pb.Token) (res : pb.Token) :
    Run (Result pb.Token pb.Token) := do
  let (claims, err) ← s.TokenService.Decode req.Token
  if err.isSome then return { req := req, res := res, err := err }
  let claims ← deref claims
  let user ← deref claims.User
  if user.Id = "" then
    return { req := req, res := res, err := some (.errorString "invalid user") }
  let res := { res with Valid := true }
  return { req := req, res := res, err := none }

/-- The handler `main` builds: the given repository, the token service,
and no broker. -/
def mainHandler (repo : Repository) (P : jwt.Primitives) (now : Int) : Handler :=
  { Repository := repo, TokenService := TokenService.toAuthable P now }

/-! ## Values the statements below name -/

/-- The `*pb.User` that `UnmarshalUser` returns for a non-nil record. -/
def User.unmarshalled (u : User) : pb.User :=
  { Id := u.ID, Name := u.Name, Email := u.Email, Surname := u.Surname,
    Password := u.Password }

/-- The storage record `Handler.Create` hands to `Repository.Create`:
`MarshalUser(req)` after `req.Password` has been set to the hash. -/
def createdRecord (req : pb.User) (hashedPass : String) : User :=
  { ID := req.Id, Name := req.Name, Email := req.Email, Surname := req.Surname,
    Password := hashedPass }

/-- The message `Handler.publishEvent` hands to `Publish` when called from
`Handler.Create`: `req` is serialised after `req.Password` has been set to
the hash. -/
def createdEvent (L : Lib) (req : pb.User) (hashedPass : String) : broker.Message :=
  { Header := [("id", req.Id)], Body := L.jsonMarshal { req with Password := hashedPass } }

/-- The header `jwt.NewWithClaims` writes for HS256. -/
def TokenService.header (P : jwt.Primitives) : jwt.Header :=
  { typ := some "JWT", alg := some P.SigningMethodHS256.Alg }

/-- The error a run returned, when it returned. -/
def Run.errOf {Req Res : Type} (r : Run (Result Req Res)) : Run (Option GoError) :=
  match r with
  | .ret x => .ret x.err
  | .panic calls => .panic calls

/-- The calls a run of a handler method made on the collaborators,
whether it returned or panicked. -/
def Run.callsOf {Req Res : Type} (r : Run (Result Req Res)) : List Call :=
  match r with
  | .ret x => x.calls
  | .panic calls => calls

/-! ## A concrete environment

Small stand-ins for the collaborators and for the library primitives, to
run the handler on concrete requests. -/

namespace Demo

/-- A stand-in for a bcrypt hash of `password`: version, cost, a fixed
22-character salt and 31 characters derived from the password, 60 bytes
in all. -/
def hashOf (password : String) : String :=
  "$2a$10$" ++ "abcdefghijklmnopqrstuv" ++
    String.mk ((password.data ++ List.replicate 31 '/').take 31)

/-- A stand-in for `json.Marshal` on a `*pb.User`: the five fields in
order, no escaping. -/
def jsonMarshal (u : pb.User) : String :=
  "\x7b\"id\":\"" ++ u.Id ++ "\",\"name\":\"" ++ u.Name ++ "\",\"email\":\"" ++ u.Email ++
    "\",\"surname\":\"" ++ u.Surname ++ "\",\"password\":\"" ++ u.Password ++ "\"\x7d"

/-- Library primitives over `hashOf`: hashing succeeds for a password of
at most 72 bytes, the empty one included; a stored hash of full size
matches exactly the password it was derived from. -/
def lib : Lib :=
  { GenerateFromPassword := fun password _ =>
      if password.utf8ByteSize > 72 then ("", some bcrypt.ErrPasswordTooLong)
      else (hashOf password, none),
    compareSized := fun hashed password =>
      if hashed = hashOf password then none
      else some bcrypt.ErrMismatchedHashAndPassword,
    jsonMarshal := jsonMarshal }

/-- The stored record of Ada, whose password is `secret123`. -/
def ada : User :=
  { ID := "0b0e7e9e-6c0a-4f0e-9a57-2f7d7c1a5b11", Name := "Ada",
    Email := "ada@example.com", Surname := "Lovelace",
    Password := hashOf "secret123" }

/-- A table holding Ada alone. -/
def db : DB := { rows := [ada] }

/-- A repository over the table `db`: reads go to the table, inserts
succeed. -/
def repository (db : DB) : Repository :=
  { GetAll := .ret (db.rows.map some, none),
    Get := fun id => .ret (some ((db.rows.find? (fun r => r.ID == id)).getD {}), none),
    Create := fun _ => .ret none,
    GetByEmail := PostgresRepository.GetByEmail db }

/-- A repository whose inserts fail. -/
def failingRepository (db : DB) : Repository :=
  { repository db with
    Create := fun _ => .ret (some (.errorString "pq: duplicate key value violates unique constraint")) }

/-- A broker whose `Publish` always fails. -/
def failingBroker : Broker :=
  { Publish := fun _ _ => .ret (some (.errorString "broker: not connected")) }

/-- A broker whose `Publish` succeeds. -/
def broker : Broker :=
  { Publish := fun _ _ => .ret none }

/-- A stand-in for HMAC-SHA256 and base64url: the key, a slash, and the
message without its dots. -/
def mac (signingString key : String) : String :=
  String.mk ((key ++ "/" ++ signingString).data.filter (fun c => c != '.'))

/-- The HS256 method over `mac`. -/
def HS256 : jwt.SigningMethod :=
  { Alg := "HS256",
    Sign := fun signingString key => .ok (mac signingString key),
    Verify := fun signingString signature key =>
      if mac signingString key = signature then none else some "signature is invalid" }

/-- A user message with an empty id. -/
def anonymous : pb.User := { Name := "Nobody" }

/-- The claims segments the stand-in codec knows: the claims
`TokenService.Encode` builds for Ada, claims without expiry for a user
with an empty id, and claims without expiry and without a user. -/
def claimsBook : List (String × CustomClaims) :=
  [("ada", TokenService.claims (some ada.unmarshalled)),
   ("anon", { User := some anonymous, StandardClaims := { Issuer := "users" } }),
   ("nouser", { User := none, StandardClaims := { Issuer := "users" } })]

/-- JWT primitives over the book: a segment is the name of its entry. -/
def primitives : jwt.Primitives :=
  { encodeHeader := fun h =>
      if h = { typ := some "JWT", alg := some "HS256" } then .ok "hdr"
      else .error "json: unsupported value",
    encodeClaims := fun c =>
      match claimsBook.find? (fun e => e.2 == c) with
      | some e => .ok e.1
      | none => .error "json: unsupported value",
    decodeHeader := fun s =>
      if s = "hdr" then .ok { typ := some "JWT", alg := some "HS256" }
      else .error "illegal base64 data at input byte 0",
    decodeClaims := fun s =>
      match claimsBook.find? (fun e => e.1 == s) with
      | some e => .ok e.2
      | none => .error "illegal base64 data at input byte 0",
    SigningMethodHS256 := HS256,
    GetSigningMethod := fun alg => if alg = "HS256" then some HS256 else none,
    fmtExpired := fun _ _ => "token is expired" }

/-- The handler over the table `db` with the token service at clock
reading `now` and the given broker. -/
def handler (now : Int) (b : Option Broker) : Handler :=
  { Repository := repository db,
    TokenService := TokenService.toAuthable primitives now,
    PubSub := b }

/-- A password of 80 bytes. -/
def longPassword : String :=
  "0123456789012345678901234567890123456789012345678901234567890123456789abcdefghij"

/-- A creation request for Grace. -/
def grace : pb.User :=
  { Name := "Grace", Email := "grace@example.com", Surname := "Hopper",
    Password := "cobol4ever" }

end Demo

/-! ## Basic facts about runs -/

@[simp] theorem Run.ret_bind {α β : Type} (a : α) (f : α → Run β) :
    (Run.ret a >>= f) = f a := rfl

@[simp] theorem Run.panic_bind {α β : Type} (calls : List Call) (f : α → Run β) :
    ((Run.panic calls : Run α) >>= f) = Run.panic calls := rfl

@[simp] theorem Run.after_ret {α : Type} (a : α) (calls : List Call) :
    (Run.ret a).after calls = Run.ret a := rfl

@[simp] theorem Run.after_panic {α : Type} (later calls : List Call) :
    (Run.panic later : Run α).after calls = Run.panic (calls ++ later) := rfl

@[simp] theorem Run.pure_eq {α : Type} (a : α) : (pure a : Run α) = Run.ret a := rfl

@[simp] theorem deref_some {α : Type} (a : α) : deref (some a) = Run.ret a := rfl

@[simp] theorem deref_none {α : Type} : deref (none : Option α) = Run.panic [] := rfl

theorem UnmarshalUser_some (u : User) :
    UnmarshalUser (some u) = .ret u.unmarshalled := rfl

/-! ## Collections -/

/-- The loop of `UnmarshalUserCollection` appends one entry per record to
whatever the slice already holds. -/
theorem unmarshal_loop (users : List User) (acc : List (Option pb.User)) :
    (users.map some).foldlM (fun u val => do
        let m ← UnmarshalUser val
        pure (u ++ [some m])) acc
      = Run.ret (acc ++ users.map (fun u => some u.unmarshalled)) := by
  induction users generalizing acc with
  | nil => simp
  | cons u us ih =>
    simp only [List.map_cons, List.foldlM_cons]
    show (us.map some).foldlM _ (acc ++ [some u.unmarshalled]) = _
    rw [ih]
    simp

theorem UnmarshalUserCollection_eq (users : List User) :
    UnmarshalUserCollection (users.map some) =
      .ret (List.replicate users.length none ++
        users.map (fun u => some u.unmarshalled)) := by
  unfold UnmarshalUserCollection
  rw [unmarshal_loop]
  simp

/-- C9 (as the code behaves): for n records returned without error by
`Repository.GetAll`, `Handler.GetAll` sets `res.Users` to n nil entries
followed by the n unmarshalled records, 2n entries in all; so for n > 0
the entries are not exactly the n records. -/
theorem Handler.GetAll_prepends_nils (s : Handler) (users : List User)
    (res : pb.Response)
    (hrepo : s.Repository.GetAll = .ret (users.map some, none)) :
    Handler.GetAll s () res =
        .ret { req := (),
               res := { res with
                 Users := List.replicate users.length none ++
                   users.map (fun u => some u.unmarshalled) },
               err := none } ∧
      (List.replicate users.length (none : Option pb.User) ++
          users.map (fun u => some u.unmarshalled)).length = 2 * users.length ∧
      (0 < users.length →
        List.replicate users.length (none : Option pb.User) ++
            users.map (fun u => some u.unmarshalled)
          ≠ users.map (fun u => some u.unmarshalled)) := by
  refine ⟨?_, ?_, ?_⟩
  · simp [Handler.GetAll, hrepo, UnmarshalUserCollection_eq]
  · simp; omega
  · intro hpos h
    have := congrArg List.length h
    simp only [List.length_append, List.length_replicate, List.length_map] at this
    omega

/-- C9 at one record: the response holds a nil entry before Ada. -/
theorem Handler.GetAll_prepends_nils_witness :
    Handler.GetAll (Demo.handler 0 none) () {} =
      .ret { req := (), res := { Users := [none, some Demo.ada.unmarshalled] },
             err := none } :=
  (Handler.GetAll_prepends_nils (Demo.handler 0 none) [Demo.ada] {} rfl).1

/-! ## Account creation -/

theorem Handler.Create_hash_error (s : Handler) (L : Lib) (req : pb.User)
    (res : pb.Response) (hashedPass : String) (e : GoError)
    (hgen : L.GenerateFromPassword req.Password bcrypt.DefaultCost = (hashedPass, some e)) :
    Handler.Create s L req res = .ret { req := req, res := res, err := some e } := by
  simp [Handler.Create, hgen]

theorem Handler.Create_repo_error (s : Handler) (L : Lib) (req : pb.User)
    (res : pb.Response) (hashedPass : String) (e : GoError)
    (hgen : L.GenerateFromPassword req.Password bcrypt.DefaultCost = (hashedPass, none))
    (hrepo : s.Repository.Create (createdRecord req hashedPass) = .ret (some e)) :
    Handler.Create s L req res =
      .ret { req := { req with Password := hashedPass }, res := res, err := some e,
             calls := [.RepositoryCreate (createdRecord req hashedPass)] } := by
  simp only [createdRecord] at hrepo
  simp [Handler.Create, hgen, MarshalUser, createdRecord, hrepo]

theorem Handler.Create_repo_panic (s : Handler) (L : Lib) (req : pb.User)
    (res : pb.Response) (hashedPass : String)
    (hgen : L.GenerateFromPassword req.Password bcrypt.DefaultCost = (hashedPass, none))
    (calls : List Call)
    (hrepo : s.Repository.Create (createdRecord req hashedPass) = .panic calls) :
    Handler.Create s L req res =
      .panic (.RepositoryCreate (createdRecord req hashedPass) :: calls) := by
  simp only [createdRecord] at hrepo
  simp [Handler.Create, hgen, MarshalUser, createdRecord, hrepo]

theorem Handler.Create_no_broker (s : Handler) (L : Lib) (req : pb.User)
    (res : pb.Response) (hashedPass : String)
    (hgen : L.GenerateFromPassword req.Password bcrypt.DefaultCost = (hashedPass, none))
    (hrepo : s.Repository.Create (createdRecord req hashedPass) = .ret none)
    (hbroker : s.PubSub = none) :
    Handler.Create s L req res =
      .panic [.RepositoryCreate (createdRecord req hashedPass)] := by
  simp only [createdRecord] at hrepo
  simp [Handler.Create, Handler.publishEvent, hgen, MarshalUser, createdRecord, hrepo, hbroker]

theorem Handler.Create_publish_panic (s : Handler) (L : Lib) (req : pb.User)
    (res : pb.Response) (hashedPass : String) (b : Broker)
    (hgen : L.GenerateFromPassword req.Password bcrypt.DefaultCost = (hashedPass, none))
    (hrepo : s.Repository.Create (createdRecord req hashedPass) = .ret none)
    (hbroker : s.PubSub = some b)
    (calls : List Call)
    (hpub : b.Publish topic (createdEvent L req hashedPass) = .panic calls) :
    Handler.Create s L req res =
      .panic (.RepositoryCreate (createdRecord req hashedPass) ::
        .Publish topic (createdEvent L req hashedPass) :: calls) := by
  simp only [createdRecord, createdEvent] at hrepo hpub
  simp [Handler.Create, Handler.publishEvent, hgen, MarshalUser, createdRecord, createdEvent,
    hrepo, hbroker, hpub]

theorem Handler.Create_published (s : Handler) (L : Lib) (req : pb.User)
    (res : pb.Response) (hashedPass : String) (b : Broker) (perr : Option GoError)
    (hgen : L.GenerateFromPassword req.Password bcrypt.DefaultCost = (hashedPass, none))
    (hrepo : s.Repository.Create (createdRecord req hashedPass) = .ret none)
    (hbroker : s.PubSub = some b)
    (hpub : b.Publish topic (createdEvent L req hashedPass) = .ret perr) :
    Handler.Create s L req res =
      .ret { req := { req with Password := hashedPass }, res := res, err := none,
             calls := [.RepositoryCreate (createdRecord req hashedPass),
                       .Publish topic (createdEvent L req hashedPass)] } := by
  simp only [createdRecord, createdEvent] at hrepo hpub
  simp [Handler.Create, Handler.publishEvent, hgen, MarshalUser, createdRecord, createdEvent,
    hrepo, hbroker, hpub]

/-- Whenever `Handler.Create` returns having made a `Publish` call, the
password was hashed, `Repository.Create` had returned a nil error before,
and these are the only two calls. -/
theorem Handler.Create_publish_after_persist (s : Handler) (L : Lib) (req : pb.User)
    (res : pb.Response) (r : Result pb.User pb.Response) (t : String) (m : broker.Message)
    (hret : Handler.Create s L req res = .ret r) (hm : Call.Publish t m ∈ r.calls) :
    ∃ hashedPass,
      L.GenerateFromPassword req.Password bcrypt.DefaultCost = (hashedPass, none) ∧
      s.Repository.Create (createdRecord req hashedPass) = .ret none ∧
      t = topic ∧ m = createdEvent L req hashedPass ∧
      r.calls = [.RepositoryCreate (createdRecord req hashedPass), .Publish t m] := by
  rcases hg : L.GenerateFromPassword req.Password bcrypt.DefaultCost with ⟨hp, _ | e⟩
  · rcases hr : s.Repository.Create (createdRecord req hp) with (_ | e) | cs
    · rcases hb : s.PubSub with _ | b
      · rw [Handler.Create_no_broker s L req res hp hg hr hb] at hret
        cases hret
      · rcases hp2 : b.Publish topic (createdEvent L req hp) with perr | cs
        · rw [Handler.Create_published s L req res hp b perr hg hr hb hp2] at hret
          cases hret
          simp at hm
          obtain ⟨rfl, rfl⟩ := hm
          exact ⟨hp, rfl, hr, rfl, rfl, rfl⟩
        · rw [Handler.Create_publish_panic s L req res hp b hg hr hb cs hp2] at hret
          cases hret
    · rw [Handler.Create_repo_error s L req res hp e hg hr] at hret
      cases hret
      simp at hm
    · rw [Handler.Create_repo_panic s L req res hp hg cs hr] at hret
      cases hret
  · rw [Handler.Create_hash_error s L req res hp e hg] at hret
    cases hret
    simp at hm

/-- Once the password is hashed, the first call of `Handler.Create` is
`Repository.Create` on the record carrying the hash, whether the run
returns or panics. -/
theorem Handler.Create_first_call (s : Handler) (L : Lib) (req : pb.User)
    (res : pb.Response) (hashedPass : String)
    (hgen : L.GenerateFromPassword req.Password bcrypt.DefaultCost = (hashedPass, none)) :
    (Run.callsOf (Handler.Create s L req res)).head? =
      some (.RepositoryCreate (createdRecord req hashedPass)) := by
  rcases hr : s.Repository.Create (createdRecord req hashedPass) with (_ | e) | cs
  · rcases hb : s.PubSub with _ | b
    · rw [Handler.Create_no_broker s L req res hashedPass hgen hr hb]
      rfl
    · rcases hp2 : b.Publish topic (createdEvent L req hashedPass) with perr | cs
      · rw [Handler.Create_published s L req res hashedPass b perr hgen hr hb hp2]
        rfl
      · rw [Handler.Create_publish_panic s L req res hashedPass b hgen hr hb cs hp2]
        rfl
  · rw [Handler.Create_repo_error s L req res hashedPass e hgen hr]
    rfl
  · rw [Handler.Create_repo_panic s L req res hashedPass hgen cs hr]
    rfl

/-- C3 (as the code behaves): on a request for which hashing,
`Repository.Create` and the broker call all return, `Handler.Create`
returns a nil error, but it leaves the response as it was (it never sets
`res.User`) and leaves the hash in `req.Password`. -/
theorem Handler.Create_response_untouched (s : Handler) (L : Lib) (req : pb.User)
    (res : pb.Response) (hashedPass : String) (b : Broker) (perr : Option GoError)
    (hgen : L.GenerateFromPassword req.Password bcrypt.DefaultCost = (hashedPass, none))
    (hrepo : s.Repository.Create (createdRecord req hashedPass) = .ret none)
    (hbroker : s.PubSub = some b)
    (hpub : b.Publish topic (createdEvent L req hashedPass) = .ret perr) :
    ∃ r, Handler.Create s L req res = .ret r ∧ r.err = none ∧ r.res = res ∧
      r.req = { req with Password := hashedPass } :=
  ⟨_, Handler.Create_published s L req res hashedPass b perr hgen hrepo hbroker hpub,
    rfl, rfl, rfl⟩

/-- C3 on the creation of Grace: success is returned, the response holds
no user, and the request holds the hash. -/
theorem Handler.Create_response_untouched_witness :
    ∃ r, Handler.Create (Demo.handler 0 (some Demo.broker)) Demo.lib Demo.grace {} = .ret r ∧
      r.err = none ∧ r.res = { User := none, Users := [] } ∧
      r.req = { Demo.grace with Password := Demo.hashOf "cobol4ever" } :=
  Handler.Create_response_untouched (Demo.handler 0 (some Demo.broker)) Demo.lib Demo.grace {}
    (Demo.hashOf "cobol4ever") Demo.broker none rfl rfl rfl rfl

/-- C4 (amended): whenever `Handler.Create` returns having published a
message, the message went to the topic `user.created`, its header holds
the request id and its body is the JSON of the request with the password
field set to the hash that bcrypt returned. -/
theorem Handler.Create_event_body (s : Handler) (L : Lib) (req : pb.User)
    (res : pb.Response) (r : Result pb.User pb.Response) (t : String) (m : broker.Message)
    (hret : Handler.Create s L req res = .ret r) (hm : Call.Publish t m ∈ r.calls) :
    ∃ hashedPass,
      L.GenerateFromPassword req.Password bcrypt.DefaultCost = (hashedPass, none) ∧
      t = "user.created" ∧ m.Header = [("id", req.Id)] ∧
      m.Body = L.jsonMarshal { req with Password := hashedPass } := by
  obtain ⟨hp, hg, _, ht, hmsg, _⟩ :=
    Handler.Create_publish_after_persist s L req res r t m hret hm
  exact ⟨hp, hg, ht, by rw [hmsg]; rfl, by rw [hmsg]; rfl⟩

/-- On a handler whose `PubSub` is set and whose `Publish` returns, when
hashing and `Repository.Create` succeed, `Handler.Create` returns a nil
error whatever `Publish` returned, an error included: `publishEvent`
logs the error and drops it. -/
theorem Handler.Create_ignores_publish_error (s : Handler) (L : Lib) (req : pb.User)
    (res : pb.Response) (hashedPass : String) (b : Broker) (perr : Option GoError)
    (hgen : L.GenerateFromPassword req.Password bcrypt.DefaultCost = (hashedPass, none))
    (hrepo : s.Repository.Create (createdRecord req hashedPass) = .ret none)
    (hbroker : s.PubSub = some b)
    (hpub : b.Publish topic (createdEvent L req hashedPass) = .ret perr) :
    Run.errOf (Handler.Create s L req res) = .ret none := by
  rw [Handler.Create_published s L req res hashedPass b perr hgen hrepo hbroker hpub]
  rfl

/-- The creation of Grace with a broker whose `Publish` fails returns a
nil error. -/
theorem Handler.Create_ignores_publish_error_witness :
    Demo.failingBroker.Publish topic
        (createdEvent Demo.lib Demo.grace (Demo.hashOf "cobol4ever")) =
      .ret (some (.errorString "broker: not connected")) ∧
    Run.errOf (Handler.Create (Demo.handler 0 (some Demo.failingBroker)) Demo.lib Demo.grace {}) =
      .ret none :=
  ⟨rfl, Handler.Create_ignores_publish_error (Demo.handler 0 (some Demo.failingBroker))
    Demo.lib Demo.grace {} (Demo.hashOf "cobol4ever") Demo.failingBroker
    (some (.errorString "broker: not connected")) rfl rfl rfl rfl⟩

/-- C6: an error from `Repository.Create` is what `Handler.Create`
returns, with `Repository.Create` as its only call (no `Publish`); and
whenever `Handler.Create` returns having made a `Publish` call, the
password had been hashed, `Repository.Create` had returned a nil error
and was called first. -/
theorem Handler.Create_persist_then_publish (s : Handler) (L : Lib) (req : pb.User)
    (res : pb.Response) :
    (∀ hashedPass e,
      L.GenerateFromPassword req.Password bcrypt.DefaultCost = (hashedPass, none) →
      s.Repository.Create (createdRecord req hashedPass) = .ret (some e) →
      ∃ r, Handler.Create s L req res = .ret r ∧ r.err = some e ∧
        r.calls = [.RepositoryCreate (createdRecord req hashedPass)] ∧
        ∀ t m, Call.Publish t m ∉ r.calls) ∧
    (∀ r t m, Handler.Create s L req res = .ret r → Call.Publish t m ∈ r.calls →
      ∃ hashedPass,
        L.GenerateFromPassword req.Password bcrypt.DefaultCost = (hashedPass, none) ∧
        s.Repository.Create (createdRecord req hashedPass) = .ret none ∧
        r.calls = [.RepositoryCreate (createdRecord req hashedPass), .Publish t m]) := by
  constructor
  · intro hashedPass e hgen hrepo
    refine ⟨_, Handler.Create_repo_error s L req res hashedPass e hgen hrepo, rfl, rfl, ?_⟩
    intro t m hm
    simp at hm
  · intro r t m hret hm
    obtain ⟨hp, hg, hr, _, _, hc⟩ :=
      Handler.Create_publish_after_persist s L req res r t m hret hm
    exact ⟨hp, hg, hr, hc⟩

/-- C6 with a repository whose insert fails. -/
theorem Handler.Create_persist_then_publish_witness :
    ∃ r, Handler.Create
          { Demo.handler 0 (some Demo.broker) with Repository := Demo.failingRepository Demo.db }
          Demo.lib Demo.grace {} = .ret r ∧
      r.err = some (.errorString "pq: duplicate key value violates unique constraint") ∧
      r.calls = [.RepositoryCreate (createdRecord Demo.grace (Demo.hashOf "cobol4ever"))] ∧
      ∀ t m, Call.Publish t m ∉ r.calls :=
  (Handler.Create_persist_then_publish
    { Demo.handler 0 (some Demo.broker) with Repository := Demo.failingRepository Demo.db }
    Demo.lib Demo.grace {}).1 (Demo.hashOf "cobol4ever") _ rfl rfl

/-- C7 (amended): `Handler.Create` checks nothing about the password
itself. When hashing returns an error, it returns that error and calls
neither `Repository.Create` nor `Publish`; when hashing succeeds, for an
empty password as for any other, it goes on to call `Repository.Create`
on the record carrying the hash: that call is the first of the run,
whether the run then returns or panics. -/
theorem Handler.Create_hashing_gate (s : Handler) (L : Lib) (req : pb.User)
    (res : pb.Response) (hashedPass : String) (err : Option GoError)
    (hgen : L.GenerateFromPassword req.Password bcrypt.DefaultCost = (hashedPass, err)) :
    (∀ e, err = some e →
      Handler.Create s L req res = .ret { req := req, res := res, err := some e, calls := [] }) ∧
    (err = none →
      (Run.callsOf (Handler.Create s L req res)).head? =
        some (.RepositoryCreate (createdRecord req hashedPass))) := by
  constructor
  · rintro e rfl
    exact Handler.Create_hash_error s L req res hashedPass e hgen
  · rintro rfl
    exact Handler.Create_first_call s L req res hashedPass hgen

/-- C7 (amended) on three runs: an 80-byte password is turned down by
the hasher before any call; an empty password reaches
`Repository.Create` on a handler with a broker; and it reaches
`Repository.Create` on the handler `main` builds, whose run then panics. -/
theorem Handler.Create_hashing_gate_witness :
    Handler.Create (Demo.handler 0 (some Demo.broker)) Demo.lib
        { Demo.grace with Password := Demo.longPassword } {} =
      .ret { req := { Demo.grace with Password := Demo.longPassword }, res := {},
             err := some bcrypt.ErrPasswordTooLong, calls := [] } ∧
    (Run.callsOf (Handler.Create (Demo.handler 0 (some Demo.broker)) Demo.lib
        { Demo.grace with Password := "" } {})).head? =
      some (.RepositoryCreate
        (createdRecord { Demo.grace with Password := "" } (Demo.hashOf ""))) ∧
    (Run.callsOf (Handler.Create
        (mainHandler (Demo.repository Demo.db) Demo.primitives 1600000000) Demo.lib
        { Demo.grace with Password := "" } {})).head? =
      some (.RepositoryCreate
        (createdRecord { Demo.grace with Password := "" } (Demo.hashOf ""))) :=
  ⟨(Handler.Create_hashing_gate (Demo.handler 0 (some Demo.broker)) Demo.lib
      { Demo.grace with Password := Demo.longPassword } {} ""
      (some bcrypt.ErrPasswordTooLong) (by decide)).1 _ rfl,
   (Handler.Create_hashing_gate (Demo.handler 0 (some Demo.broker)) Demo.lib
      { Demo.grace with Password := "" } {} (Demo.hashOf "") none (by decide)).2 rfl,
   (Handler.Create_hashing_gate
      (mainHandler (Demo.repository Demo.db) Demo.primitives 1600000000) Demo.lib
      { Demo.grace with Password := "" } {} (Demo.hashOf "") none (by decide)).2 rfl⟩

/-- C7 (as stated) fails: a request with an empty password is not turned
down; the empty password is hashed, the record is handed to
`Repository.Create`, the event is published and a nil error is returned. -/
theorem Handler.Create_accepts_empty_password :
    Handler.Create (Demo.handler 0 (some Demo.broker)) Demo.lib
        { Name := "Grace", Email := "grace@example.com", Surname := "Hopper", Password := "" }
        {} =
      .ret { req := { Name := "Grace", Email := "grace@example.com", Surname := "Hopper",
                      Password := "$2a$10$abcdefghijklmnopqrstuv///////////////////////////////" },
             res := {},
             err := none,
             calls :=
               [.RepositoryCreate
                  { Name := "Grace", Email := "grace@example.com", Surname := "Hopper",
                    Password := "$2a$10$abcdefghijklmnopqrstuv///////////////////////////////" },
                .Publish "user.created"
                  (createdEvent Demo.lib
                    { Name := "Grace", Email := "grace@example.com", Surname := "Hopper",
                      Password := "" }
                    "$2a$10$abcdefghijklmnopqrstuv///////////////////////////////")] } := by
  decide

/-- C4 (amended) on the creation of Grace. -/
theorem Handler.Create_event_body_witness :
    ∃ hashedPass,
      Demo.lib.GenerateFromPassword Demo.grace.Password bcrypt.DefaultCost = (hashedPass, none) ∧
      topic = "user.created" ∧
      (createdEvent Demo.lib Demo.grace (Demo.hashOf "cobol4ever")).Header =
        [("id", Demo.grace.Id)] ∧
      (createdEvent Demo.lib Demo.grace (Demo.hashOf "cobol4ever")).Body =
        Demo.lib.jsonMarshal { Demo.grace with Password := hashedPass } :=
  Handler.Create_event_body (Demo.handler 0 (some Demo.broker)) Demo.lib Demo.grace {}
    { req := { Demo.grace with Password := Demo.hashOf "cobol4ever" }, res := {}, err := none,
      calls := [.RepositoryCreate (createdRecord Demo.grace (Demo.hashOf "cobol4ever")),
                .Publish topic (createdEvent Demo.lib Demo.grace (Demo.hashOf "cobol4ever"))] }
    topic (createdEvent Demo.lib Demo.grace (Demo.hashOf "cobol4ever"))
    (by decide) (by simp)

set_option maxRecDepth 8000 in
/-- C4 (as stated) fails: on the creation of Grace the body of the
published message holds a non-empty password field, and the password
hash occurs in the body. -/
theorem Handler.Create_event_carries_hash :
    Handler.Create (Demo.handler 0 (some Demo.broker)) Demo.lib
        { Name := "Grace", Email := "grace@example.com", Surname := "Hopper",
          Password := "cobol4ever" } {} =
      .ret { req := { Name := "Grace", Email := "grace@example.com", Surname := "Hopper",
                      Password := "$2a$10$abcdefghijklmnopqrstuvcobol4ever/////////////////////" },
             res := {},
             err := none,
             calls :=
               [.RepositoryCreate
                  { Name := "Grace", Email := "grace@example.com", Surname := "Hopper",
                    Password := "$2a$10$abcdefghijklmnopqrstuvcobol4ever/////////////////////" },
                .Publish "user.created"
                  { Header := [("id", "")],
                    Body := Demo.jsonMarshal
                      { Name := "Grace", Email := "grace@example.com", Surname := "Hopper",
                        Password :=
                          "$2a$10$abcdefghijklmnopqrstuvcobol4ever/////////////////////" } }] } ∧
    "$2a$10$abcdefghijklmnopqrstuvcobol4ever/////////////////////".data <:+:
      (Demo.jsonMarshal
        { Name := "Grace", Email := "grace@example.com", Surname := "Hopper",
          Password := "$2a$10$abcdefghijklmnopqrstuvcobol4ever/////////////////////" }).data ∧
    Demo.lib.GenerateFromPassword "cobol4ever" bcrypt.DefaultCost =
      ("$2a$10$abcdefghijklmnopqrstuvcobol4ever/////////////////////", none) := by
  refine ⟨by decide, by decide, by decide⟩


/-! ## Authentication -/

/-- With the Postgres lookup, `Handler.Auth` compares the request password
against the password column of the scanned record; an error of that
comparison is returned with the response untouched and no call made. -/
theorem Handler.Auth_compare_error (s : Handler) (L : Lib) (db : DB) (req : pb.User)
    (res : pb.Token) (e : GoError)
    (hrepo : s.Repository.GetByEmail = PostgresRepository.GetByEmail db)
    (hcmp : bcrypt.CompareHashAndPassword L (db.scanByEmail req.Email {}).1.Password
      req.Password = some e) :
    Handler.Auth s L req res = .ret { req := req, res := res, err := some e, calls := [] } := by
  simp [Handler.Auth, hrepo, PostgresRepository.GetByEmail, hcmp]

/-- C2 (amended): with the Postgres lookup, `Handler.Auth` for an email
that has no stored user returns `bcrypt.ErrHashTooShort` (the comparison
runs against the empty password column of a zero-value record), and for
the email of a stored user with a password that the comparison rejects
it returns the error of `bcrypt.CompareHashAndPassword` on the stored
hash; in both cases the response is untouched and `Encode` is not
called, so no token is issued. -/
theorem Handler.Auth_failures (s : Handler) (L : Lib) (db : DB) (req : pb.User)
    (res : pb.Token)
    (hrepo : s.Repository.GetByEmail = PostgresRepository.GetByEmail db) :
    (db.rows.find? (fun r => r.Email == req.Email) = none →
      Handler.Auth s L req res =
        .ret { req := req, res := res, err := some bcrypt.ErrHashTooShort, calls := [] }) ∧
    (∀ u e, db.rows.find? (fun r => r.Email == req.Email) = some u →
      bcrypt.CompareHashAndPassword L u.Password req.Password = some e →
      Handler.Auth s L req res =
        .ret { req := req, res := res, err := some e, calls := [] }) := by
  constructor
  · intro hnone
    apply Handler.Auth_compare_error s L db req res _ hrepo
    simp only [DB.scanByEmail, hnone]
    unfold bcrypt.CompareHashAndPassword
    rw [if_pos (by decide)]
  · intro u e hsome hcmp
    apply Handler.Auth_compare_error s L db req res _ hrepo
    simp only [DB.scanByEmail, hsome]
    exact hcmp

/-- C2 (amended) on the table holding Ada: an unknown email gets
`ErrHashTooShort`, the email of Ada with a wrong password gets
`ErrMismatchedHashAndPassword`. -/
theorem Handler.Auth_failures_witness :
    Handler.Auth (Demo.handler 0 none) Demo.lib
        { Email := "nobody@example.com", Password := "wrong" } {} =
      .ret { req := { Email := "nobody@example.com", Password := "wrong" }, res := {},
             err := some bcrypt.ErrHashTooShort, calls := [] } ∧
    Handler.Auth (Demo.handler 0 none) Demo.lib
        { Email := "ada@example.com", Password := "wrong" } {} =
      .ret { req := { Email := "ada@example.com", Password := "wrong" }, res := {},
             err := some bcrypt.ErrMismatchedHashAndPassword, calls := [] } :=
  ⟨(Handler.Auth_failures (Demo.handler 0 none) Demo.lib Demo.db
      { Email := "nobody@example.com", Password := "wrong" } {} rfl).1 (by decide),
   (Handler.Auth_failures (Demo.handler 0 none) Demo.lib Demo.db
      { Email := "ada@example.com", Password := "wrong" } {} rfl).2 Demo.ada _ (by decide)
      (by decide)⟩

/-- C2 (as stated) fails: on the table holding Ada and with the same
password, the error returned for an unknown email differs from the error
returned for the email of Ada and a wrong password. -/
theorem Handler.Auth_errors_differ :
    Run.errOf (Handler.Auth (Demo.handler 0 none) Demo.lib
        { Email := "nobody@example.com", Password := "wrong" } {}) ≠
      Run.errOf (Handler.Auth (Demo.handler 0 none) Demo.lib
        { Email := "ada@example.com", Password := "wrong" } {}) := by
  decide

/-- The lookup and the comparison behind `Handler.Auth_errors_differ`: no
row for the unknown email, the row of Ada for hers, and a stored hash
that is not the hash of the password tried. -/
theorem Demo.auth_inputs :
    Demo.db.rows.find? (fun r => r.Email == "nobody@example.com") = none ∧
    Demo.db.rows.find? (fun r => r.Email == "ada@example.com") = some Demo.ada ∧
    bcrypt.CompareHashAndPassword Demo.lib Demo.ada.Password "wrong" =
      some bcrypt.ErrMismatchedHashAndPassword ∧
    bcrypt.CompareHashAndPassword Demo.lib Demo.ada.Password "secret123" = none := by
  decide

/-! ## Tokens -/

theorem strings.splitChars_of_not_mem (sep : Char) (l : List Char) (h : sep ∉ l) :
    strings.splitChars sep l = [l] := by
  induction l with
  | nil => rfl
  | cons c cs ih =>
    have hc : c ≠ sep := fun hc => h (by simp [hc])
    have hcs : sep ∉ cs := fun hm => h (List.mem_cons_of_mem _ hm)
    simp [strings.splitChars, hc, ih hcs]

theorem strings.splitChars_append (sep : Char) (l r : List Char) (h : sep ∉ l) :
    strings.splitChars sep (l ++ sep :: r) = l :: strings.splitChars sep r := by
  induction l with
  | nil => simp [strings.splitChars]
  | cons c cs ih =>
    have hc : c ≠ sep := fun hc => h (by simp [hc])
    have hcs : sep ∉ cs := fun hm => h (List.mem_cons_of_mem _ hm)
    simp [strings.splitChars, hc, ih hcs]

theorem strings.Split_three (a b c : String) (ha : '.' ∉ a.data) (hb : '.' ∉ b.data)
    (hc : '.' ∉ c.data) :
    strings.Split (a ++ "." ++ b ++ "." ++ c) '.' = [a, b, c] := by
  have hdata : (a ++ "." ++ b ++ "." ++ c).data =
      a.data ++ '.' :: (b.data ++ '.' :: c.data) := by
    simp [String.data_append]
  unfold strings.Split
  rw [hdata, strings.splitChars_append _ _ _ ha, strings.splitChars_append _ _ _ hb,
    strings.splitChars_of_not_mem _ _ hc]
  rfl

/-- A token string without exactly three segments makes the parser return
a nil token. -/
theorem jwt.ParseUnverified_nil (P : jwt.Primitives) (tokenString : String)
    (h : (strings.Split tokenString '.').length ≠ 3) :
    ∃ e, jwt.ParseUnverified P tokenString =
      (none, strings.Split tokenString '.', some e) := by
  unfold jwt.ParseUnverified
  rcases hp : strings.Split tokenString '.' with _ | ⟨a, _ | ⟨b, _ | ⟨c, _ | ⟨d, l⟩⟩⟩⟩
  · exact ⟨_, rfl⟩
  · exact ⟨_, rfl⟩
  · exact ⟨_, rfl⟩
  · rw [hp] at h; simp at h
  · exact ⟨_, rfl⟩

theorem TokenService.Decode_panics (P : jwt.Primitives) (now : Int) (token : String)
    (h : (strings.Split token '.').length ≠ 3) :
    TokenService.Decode P now token = .panic [] := by
  obtain ⟨e, he⟩ := jwt.ParseUnverified_nil P token h
  simp [TokenService.Decode, jwt.ParseWithClaims, he]

/-- With three segments the parser returns a token, never nil. -/
theorem jwt.ParseUnverified_three (P : jwt.Primitives) (tokenString p0 p1 p2 : String)
    (h : strings.Split tokenString '.' = [p0, p1, p2]) :
    (∃ t e, t.Valid = false ∧
      jwt.ParseUnverified P tokenString = (some t, [p0, p1, p2], some e)) ∨
    (∃ header claims m, P.decodeHeader p0 = .ok header ∧ P.decodeClaims p1 = .ok claims ∧
      jwt.ParseUnverified P tokenString =
        (some { Raw := tokenString, Header := header, Claims := some claims, Method := some m },
         [p0, p1, p2], none)) := by
  unfold jwt.ParseUnverified
  rw [h]
  simp only
  rcases hh : P.decodeHeader p0 with e | header
  · left
    by_cases hb : strings.hasBearer tokenString <;> simp [hb]
  · rcases hc : P.decodeClaims p1 with e | claims
    · left; simp
    · rcases ha : header.alg with _ | alg
      · left; simp [ha]
      · rcases hm : P.GetSigningMethod alg with _ | m
        · left; simp [ha, hm]
        · right
          exact ⟨header, claims, m, rfl, rfl, by simp [ha, hm]⟩

theorem Nat.lor_eq_zero_left (x y : Nat) (h : x ||| y = 0) : x = 0 := by
  apply Nat.eq_of_testBit_eq
  intro i
  have := congrArg (fun n => n.testBit i) h
  simp [Nat.testBit_or] at this
  simp [this.1]

theorem Nat.lor_eq_zero_right (x y : Nat) (h : x ||| y = 0) : y = 0 := by
  apply Nat.eq_of_testBit_eq
  intro i
  have := congrArg (fun n => n.testBit i) h
  simp [Nat.testBit_or] at this
  simp [this.2]

/-- An error returned by `StandardClaims.Valid` has an error bit set. -/
theorem jwt.StandardClaims.Valid_some (f : Int → Int → String) (now : Int)
    (c : jwt.StandardClaims) (e : jwt.VErr)
    (h : jwt.StandardClaims.Valid f now c = some e) : e.Errors ≠ 0 := by
  unfold jwt.StandardClaims.Valid at h
  by_cases hv : (jwt.StandardClaims.checks f now c).valid
  · simp [hv] at h
  · simp only [hv] at h
    simp only [Bool.false_eq_true, if_false, Option.some.injEq] at h
    subst h
    simpa [jwt.VErr.valid] using hv

/-- A set expiry in the past makes `StandardClaims.Valid` fail. -/
theorem jwt.StandardClaims.Valid_expired (f : Int → Int → String) (now : Int)
    (c : jwt.StandardClaims) (h0 : c.ExpiresAt ≠ 0) (h : c.ExpiresAt < now) :
    jwt.StandardClaims.Valid f now c ≠ none := by
  have hexp : jwt.verifyExp c.ExpiresAt now false = false := by
    simp [jwt.verifyExp, h0, h]
  have hne : (jwt.StandardClaims.checks f now c).Errors ≠ 0 := by
    unfold jwt.StandardClaims.checks
    simp only [hexp]
    intro hz
    split_ifs at hz
    all_goals
      first
      | (simp only [jwt.ValidationErrorExpired, jwt.ValidationErrorIssuedAt,
          jwt.ValidationErrorNotValidYet] at hz
         exact absurd hz (by decide))
      | simp_all
  unfold jwt.StandardClaims.Valid
  simp [jwt.VErr.valid, hne]

/-- What `TokenService.Decode` does with a three-segment token: it returns
an error and nil claims, or it returns the claims decoded from the second
segment, which then passed `StandardClaims.Valid` at `now`. -/
theorem TokenService.Decode_three (P : jwt.Primitives) (now : Int)
    (token p0 p1 p2 : String) (h : strings.Split token '.' = [p0, p1, p2]) :
    (∃ e, TokenService.Decode P now token = .ret (none, some e)) ∨
    (∃ claims, P.decodeClaims p1 = .ok claims ∧
      jwt.StandardClaims.Valid P.fmtExpired now claims.StandardClaims = none ∧
      TokenService.Decode P now token = .ret (some claims, none)) := by
  rcases jwt.ParseUnverified_three P token p0 p1 p2 h with
    ⟨t, e, hval, hpu⟩ | ⟨header, claims, m, hh, hc, hpu⟩
  · left
    refine ⟨e, ?_⟩
    simp only [TokenService.Decode, jwt.ParseWithClaims, hpu]
    simp
    rcases t.Claims with _ | c
    · rfl
    · simp [hval]
  · simp only [TokenService.Decode, jwt.ParseWithClaims, hpu]
    rcases hv : jwt.StandardClaims.Valid P.fmtExpired now claims.StandardClaims with _ | ve
    · rcases hver : m.Verify (p0 ++ "." ++ p1) p2 key with _ | se
      · right
        refine ⟨claims, hc, hv, ?_⟩
        simp [hv, hver, jwt.VErr.valid]
      · left
        simp [hv, hver, jwt.VErr.valid, jwt.ValidationErrorSignatureInvalid]
    · left
      have hne := jwt.StandardClaims.Valid_some _ _ _ _ hv
      rcases hver : m.Verify (p0 ++ "." ++ p1) p2 key with _ | se
      · simp [hv, hver, jwt.VErr.valid, hne]
      · have hne2 : ve.Errors ||| jwt.ValidationErrorSignatureInvalid ≠ 0 :=
          fun hz => hne (Nat.lor_eq_zero_left _ _ hz)
        simp [hv, hver, jwt.VErr.valid, hne2]

/-- `TokenService.Encode` joins the encoded header, the encoded claims and
the signature with dots. -/
theorem TokenService.Encode_eq (P : jwt.Primitives) (u : Option pb.User)
    (h c sig : String)
    (hh : P.encodeHeader (TokenService.header P) = .ok h)
    (hc : P.encodeClaims (TokenService.claims u) = .ok c)
    (hs : P.SigningMethodHS256.Sign (h ++ "." ++ c) key = .ok sig) :
    TokenService.Encode P u = .ret (h ++ "." ++ c ++ "." ++ sig, none) := by
  simp only [TokenService.header] at hh
  simp [TokenService.Encode, jwt.NewWithClaims, jwt.Token.SignedString,
    jwt.Token.SigningString, hh, hc, hs]

/-- C1 (as the code behaves): the expiry written by `TokenService.Encode`
is the fixed instant 15000 (seconds after the epoch), not the instant of
issuance plus a time-to-live. So at every clock reading after 15000,
however soon after issuance, `TokenService.Decode` applied to the token
that `TokenService.Encode` returned fails: it returns nil claims and an
error. The segment encoders are assumed to put no dot in a segment (as
base64url does) and to decode a claims segment to the claims encoded. -/
theorem TokenService.Decode_Encode_expired (P : jwt.Primitives) (u : Option pb.User)
    (now : Int) (h c sig : String)
    (hh : P.encodeHeader (TokenService.header P) = .ok h)
    (hc : P.encodeClaims (TokenService.claims u) = .ok c)
    (hs : P.SigningMethodHS256.Sign (h ++ "." ++ c) key = .ok sig)
    (hdh : '.' ∉ h.data) (hdc : '.' ∉ c.data) (hds : '.' ∉ sig.data)
    (hrt : P.decodeClaims c = .ok (TokenService.claims u))
    (hnow : 15000 < now) :
    TokenService.Encode P u = .ret (h ++ "." ++ c ++ "." ++ sig, none) ∧
    ∃ e, TokenService.Decode P now (h ++ "." ++ c ++ "." ++ sig) = .ret (none, some e) := by
  refine ⟨TokenService.Encode_eq P u h c sig hh hc hs, ?_⟩
  rcases TokenService.Decode_three P now _ h c sig (strings.Split_three h c sig hdh hdc hds) with
    he | ⟨claims, hdec, hvalid, _⟩
  · exact he
  · exfalso
    rw [hrt] at hdec
    cases hdec
    exact jwt.StandardClaims.Valid_expired P.fmtExpired now
      (TokenService.claims u).StandardClaims (by simp [TokenService.claims]) hnow hvalid

/-- C1 on the token issued for Ada, read at a clock of 1600000000. -/
theorem TokenService.Decode_Encode_expired_witness :
    TokenService.Encode Demo.primitives (some Demo.ada.unmarshalled) =
      .ret ("hdr" ++ "." ++ "ada" ++ "." ++ "mySuperSecretKey/hdrada", none) ∧
    ∃ e, TokenService.Decode Demo.primitives 1600000000
      ("hdr" ++ "." ++ "ada" ++ "." ++ "mySuperSecretKey/hdrada") = .ret (none, some e) :=
  TokenService.Decode_Encode_expired Demo.primitives (some Demo.ada.unmarshalled) 1600000000
    "hdr" "ada" "mySuperSecretKey/hdrada" rfl rfl rfl
    (by decide) (by decide) (by decide) rfl (by decide)

/-! ## Token validation -/

/-- What `Handler.ValidateToken` does after a decode that returned claims
and a nil error. -/
theorem Handler.ValidateToken_decoded (s : Handler) (req res : pb.Token)
    (claims : CustomClaims)
    (hdec : s.TokenService.Decode req.Token = .ret (some claims, none)) :
    Handler.ValidateToken s req res =
      match claims.User with
      | none => .panic []
      | some user =>
        if user.Id = "" then
          .ret { req := req, res := res, err := some (.errorString "invalid user") }
        else .ret { req := req, res := { res with Valid := true }, err := none } := by
  rcases hu : claims.User with _ | user
  · simp [Handler.ValidateToken, hdec, hu]
  · by_cases hid : user.Id = "" <;> simp [Handler.ValidateToken, hdec, hu, hid]

/-- C10: `Handler.ValidateToken` returns with `Valid` set and a nil error
exactly when `TokenService.Decode` returns claims and a nil error and the
user embedded in the claims has a non-empty id; when `Decode` succeeds
and the embedded user has an empty id, it returns the error
`invalid user` and leaves the response, `Valid` included, as it was. -/
theorem Handler.ValidateToken_valid_iff (s : Handler) (P : jwt.Primitives) (now : Int)
    (req res : pb.Token)
    (hs : s.TokenService = TokenService.toAuthable P now) :
    ((∃ r, Handler.ValidateToken s req res = .ret r ∧ r.res.Valid = true ∧ r.err = none) ↔
      ∃ claims user, TokenService.Decode P now req.Token = .ret (some claims, none) ∧
        claims.User = some user ∧ user.Id ≠ "") ∧
    (∀ claims user, TokenService.Decode P now req.Token = .ret (some claims, none) →
      claims.User = some user → user.Id = "" →
      Handler.ValidateToken s req res =
        .ret { req := req, res := res, err := some (.errorString "invalid user") }) := by
  have hd : s.TokenService.Decode = TokenService.Decode P now := by rw [hs]; rfl
  constructor
  · constructor
    · rintro ⟨r, hret, hvalid, herr⟩
      rcases hdec : TokenService.Decode P now req.Token with ⟨claims, err⟩ | _
      · rcases err with _ | e
        · rcases claims with _ | claims
          · simp [Handler.ValidateToken, hd, hdec] at hret
          · rw [Handler.ValidateToken_decoded s req res claims (by rw [hd, hdec])] at hret
            rcases hu : claims.User with _ | user
            · simp [hu] at hret
            · by_cases hid : user.Id = ""
              · simp [hu, hid] at hret
                subst hret
                simp at herr
              · exact ⟨claims, user, rfl, hu, hid⟩
        · simp [Handler.ValidateToken, hd, hdec] at hret
          subst hret
          simp at herr
      · simp [Handler.ValidateToken, hd, hdec] at hret
    · rintro ⟨claims, user, hdec, hu, hid⟩
      rw [Handler.ValidateToken_decoded s req res claims (by rw [hd, hdec])]
      simp [hu, hid]
  · intro claims user hdec hu hid
    rw [Handler.ValidateToken_decoded s req res claims (by rw [hd, hdec])]
    simp [hu, hid]

/-- C10 on a token whose claims hold a user with an empty id: the token
decodes, and validation answers `invalid user` with `Valid` left false. -/
theorem Handler.ValidateToken_valid_iff_witness :
    TokenService.Decode Demo.primitives 1600000000 "hdr.anon.mySuperSecretKey/hdranon" =
      .ret (some { User := some Demo.anonymous, StandardClaims := { Issuer := "users" } },
        none) ∧
    Handler.ValidateToken (Demo.handler 1600000000 none)
        { Token := "hdr.anon.mySuperSecretKey/hdranon" } {} =
      .ret { req := { Token := "hdr.anon.mySuperSecretKey/hdranon" },
             res := { Token := "", Valid := false },
             err := some (.errorString "invalid user") } :=
  ⟨by decide,
   (Handler.ValidateToken_valid_iff (Demo.handler 1600000000 none) Demo.primitives 1600000000
      { Token := "hdr.anon.mySuperSecretKey/hdranon" } {} rfl).2
      { User := some Demo.anonymous, StandardClaims := { Issuer := "users" } } Demo.anonymous
      (by decide) rfl rfl⟩

/-- C8 (as the code behaves): `Handler.ValidateToken` panics with a nil
pointer dereference on a token string that does not have exactly three
dot-separated segments (the parser returns a nil token, which
`TokenService.Decode` dereferences), and on a token that decodes to
claims without an embedded user (`claims.User.Id` is read through the
nil pointer). -/
theorem Handler.ValidateToken_panics (s : Handler) (P : jwt.Primitives) (now : Int)
    (req res : pb.Token)
    (hs : s.TokenService = TokenService.toAuthable P now) :
    ((strings.Split req.Token '.').length ≠ 3 →
      Handler.ValidateToken s req res = .panic []) ∧
    (∀ claims, TokenService.Decode P now req.Token = .ret (some claims, none) →
      claims.User = none → Handler.ValidateToken s req res = .panic []) := by
  have hd : s.TokenService.Decode = TokenService.Decode P now := by rw [hs]; rfl
  constructor
  · intro hparts
    simp [Handler.ValidateToken, hd, TokenService.Decode_panics P now req.Token hparts]
  · intro claims hdec hu
    rw [Handler.ValidateToken_decoded s req res claims (by rw [hd, hdec])]
    simp [hu]

/-- C8 on the empty token string and on a signed token whose claims hold
no user: both panic. -/
theorem Handler.ValidateToken_panics_witness :
    Handler.ValidateToken (Demo.handler 1600000000 none) { Token := "" } {} = .panic [] ∧
    Handler.ValidateToken (Demo.handler 1600000000 none)
      { Token := "hdr.nouser.mySuperSecretKey/hdrnouser" } {} = .panic [] :=
  ⟨(Handler.ValidateToken_panics (Demo.handler 1600000000 none) Demo.primitives 1600000000
      { Token := "" } {} rfl).1 (by decide),
   (Handler.ValidateToken_panics (Demo.handler 1600000000 none) Demo.primitives 1600000000
      { Token := "hdr.nouser.mySuperSecretKey/hdrnouser" } {} rfl).2
      { User := none, StandardClaims := { Issuer := "users" } } (by decide) rfl⟩

/-- The claims `TokenService.Encode` writes pass `StandardClaims.Valid`
at every clock reading up to 15000. -/
theorem TokenService.claims_valid_until (f : Int → Int → String) (now : Int)
    (u : Option pb.User) (hnow : now ≤ 15000) :
    jwt.StandardClaims.Valid f now (TokenService.claims u).StandardClaims = none := by
  simp [jwt.StandardClaims.Valid, jwt.StandardClaims.checks, TokenService.claims,
    jwt.verifyExp, jwt.verifyIat, jwt.verifyNbf, jwt.VErr.valid, hnow]

/-- Up to the clock reading 15000 the token issued for a user decodes
to the claims written, whenever the header segment decodes to a header
naming a registered method under which the signature verifies. -/
theorem TokenService.Decode_Encode_until (P : jwt.Primitives) (u : Option pb.User)
    (now : Int) (h c sig alg : String) (header : jwt.Header) (m : jwt.SigningMethod)
    (hdh : '.' ∉ h.data) (hdc : '.' ∉ c.data) (hds : '.' ∉ sig.data)
    (hhd : P.decodeHeader h = .ok header) (halg : header.alg = some alg)
    (hm : P.GetSigningMethod alg = some m)
    (hver : m.Verify (h ++ "." ++ c) sig key = none)
    (hrt : P.decodeClaims c = .ok (TokenService.claims u))
    (hnow : now ≤ 15000) :
    TokenService.Decode P now (h ++ "." ++ c ++ "." ++ sig) =
      .ret (some (TokenService.claims u), none) := by
  have hsplit := strings.Split_three h c sig hdh hdc hds
  have hvalid := TokenService.claims_valid_until P.fmtExpired now u hnow
  simp [TokenService.Decode, jwt.ParseWithClaims, jwt.ParseUnverified, hsplit, hhd, halg, hm,
    hver, hrt, hvalid, jwt.VErr.valid]

/-- The token issued for Ada still decodes at the clock reading 15000. -/
theorem TokenService.Decode_Encode_until_witness :
    TokenService.Decode Demo.primitives 15000
        ("hdr" ++ "." ++ "ada" ++ "." ++ "mySuperSecretKey/hdrada") =
      .ret (some (TokenService.claims (some Demo.ada.unmarshalled)), none) :=
  TokenService.Decode_Encode_until Demo.primitives (some Demo.ada.unmarshalled) 15000
    "hdr" "ada" "mySuperSecretKey/hdrada" "HS256" { typ := some "JWT", alg := some "HS256" }
    Demo.HS256 (by decide) (by decide) (by decide) rfl rfl rfl rfl rfl (by decide)

/-! ## The handler as `main` builds it -/

/-- C5 (as the code behaves): `main` builds the handler without a broker
(`PubSub` is left nil). On that handler, for every request on which
password hashing and `Repository.Create` succeed, `Handler.Create` does
not return a nil error: it panics in `publishEvent`, on the call of
`Publish` through the nil `PubSub`, with `Repository.Create` as the one
call made. -/
theorem Handler.Create_main_panics (repo : Users.Repository) (P : jwt.Primitives) (now : Int)
    (L : Lib) (req : pb.User) (res : pb.Response) (hashedPass : String)
    (hgen : L.GenerateFromPassword req.Password bcrypt.DefaultCost = (hashedPass, none))
    (hrepo : repo.Create (createdRecord req hashedPass) = .ret none) :
    Handler.Create (mainHandler repo P now) L req res =
        .panic [.RepositoryCreate (createdRecord req hashedPass)] ∧
      Run.errOf (Handler.Create (mainHandler repo P now) L req res) ≠ .ret none := by
  have h := Handler.Create_no_broker (mainHandler repo P now) L req res hashedPass hgen hrepo rfl
  refine ⟨h, ?_⟩
  rw [h]
  intro hne
  cases hne

/-- C5 on the creation of Grace with the handler `main` builds: the
record is handed to the repository and the run panics. -/
theorem Handler.Create_main_panics_witness :
    Handler.Create (mainHandler (Demo.repository Demo.db) Demo.primitives 1600000000)
        Demo.lib Demo.grace {} =
      .panic [.RepositoryCreate (createdRecord Demo.grace (Demo.hashOf "cobol4ever"))] :=
  (Handler.Create_main_panics (Demo.repository Demo.db) Demo.primitives 1600000000 Demo.lib
    Demo.grace {} (Demo.hashOf "cobol4ever") rfl rfl).1

end Users
